import Mathlib

/-!
Verification of `ezrecords/abstractdb.py` (class `Database`).

Strings are modelled as `List Char`; SQL argument values as `Int`.  The
mutable session object (`Database.__init__`, lines 41-113) is modelled as an
explicit `Session` record, and each Python method as a pure function from the
old session to the new one.  The DB-API cursor supplied by the backend is
modelled by the metadata the code reads from it (`rowcount`, `lastrowid`).

`ezrecords.util.str_replace` and `ezrecords.util.preg_replace` are imported by
`abstractdb.py` but their source is not part of this repository snapshot; they
are modelled from the spec (see the doc comments on `strReplace` and
`pregReplacePercentRuns`).
-/

namespace Ezrecords

/-- Python strings, modelled as lists of characters. -/
abbrev Str := List Char

/-- The single-quote character, `'`. -/
def squote : Char := Char.ofNat 39

/-- `Database._placeholder` (line 110): the bare placeholder marker `%s`. -/
def placeholder : Str := "%s".data

/-- The single-quoted marker pattern `'%s'` of line 189. -/
def sqTok : Str := squote :: "%s".data ++ [squote]

/-- The double-quoted marker pattern `"%s"` of line 190. -/
def dqTok : Str := "\"%s\"".data

/-- The float marker `%f` of line 191. -/
def fTok : Str := "%f".data

/-- The integer marker `%d` of line 192. -/
def dTok : Str := "%d".data

/-- Modelled from the spec: `ezrecords.util.str_replace(pat, repl, s)` (the
source of `ezrecords.util` is not under `src/`).  Per the spec's normalizer
rules, every occurrence of the pattern "is replaced by" the replacement;
occurrences are found scanning left to right and are not rescanned (Python
`str.replace` semantics). -/
def strReplace (pat repl : Str) : Str → Str
  | [] => []
  | c :: rest =>
    if pat ≠ [] ∧ pat.isPrefixOf (c :: rest) then
      repl ++ strReplace pat repl ((c :: rest).drop pat.length)
    else
      c :: strReplace pat repl rest
termination_by s => s.length
decreasing_by
  · simp only [List.length_drop, List.length_cons]
    have hpat : 1 ≤ pat.length := by
      rcases pat with _ | ⟨p, ps⟩
      · simp at *
      · simp [Nat.succ_le_succ]
    omega
  · simp [Nat.lt_succ_self]

/-- Specification-side companion of `strReplace`: split the subject at every
(left-to-right, non-overlapping) occurrence of the pattern.  The parts are in
order and the number of occurrences is the number of parts minus one. -/
def splitStr (pat : Str) : Str → List Str
  | [] => [[]]
  | c :: rest =>
    if pat ≠ [] ∧ pat.isPrefixOf (c :: rest) then
      [] :: splitStr pat ((c :: rest).drop pat.length)
    else
      match splitStr pat rest with
      | [] => [[c]]
      | p :: ps => (c :: p) :: ps
termination_by s => s.length
decreasing_by
  · simp only [List.length_drop, List.length_cons]
    have hpat : 1 ≤ pat.length := by
      rcases pat with _ | ⟨p, ps⟩
      · simp at *
      · simp [Nat.succ_le_succ]
    omega
  · simp [Nat.lt_succ_self]

/-- Join a list of parts, writing `sep` between consecutive parts. -/
def joinWith (sep : Str) : List Str → Str
  | [] => []
  | [x] => x
  | x :: y :: rest => x ++ sep ++ joinWith sep (y :: rest)

/-- Specification-side replacement: every occurrence of `pat`, in order,
becomes `repl`. -/
def replaceSpec (pat repl : Str) (s : Str) : Str :=
  joinWith repl (splitStr pat s)

/-- Dropping a prefix cannot lengthen a list. -/
lemma dropWhile_length_le (p : Char → Bool) (l : List Char) :
    (l.dropWhile p).length ≤ l.length := by
  induction l with
  | nil => simp
  | cons d ds ih =>
    rw [List.dropWhile_cons]
    split
    · exact Nat.le_succ_of_le ih
    · simp

/-- Modelled from the spec: `ezrecords.util.preg_replace` applied to the fixed
pattern of line 193, `preg_replace(r'(%)\1+', r'\1', sql)` (the source of
`ezrecords.util` is not under `src/`).  The regex matches a run of two or more
consecutive `%` characters (greedily, i.e. maximally) and replaces it with a
single `%`; scanning resumes after the match. -/
def pregReplacePercentRuns : Str → Str
  | [] => []
  | c :: rest =>
    if c = '%' ∧ rest.head? = some '%' then
      '%' :: pregReplacePercentRuns (rest.dropWhile (· == '%'))
    else
      c :: pregReplacePercentRuns rest
termination_by s => s.length
decreasing_by
  · simp only [List.length_cons]
    have h := dropWhile_length_le (· == '%') rest
    omega
  · simp [Nat.lt_succ_self]

/-- Specification-side collapse: each maximal run of consecutive `%`
characters is emitted as a single `%` (a run of length one is unchanged, a run
of length two or more is collapsed to one marker character). -/
def collapseRuns : Str → Str
  | [] => []
  | c :: rest =>
    if c = '%' then
      '%' :: collapseRuns (rest.dropWhile (· == '%'))
    else
      c :: collapseRuns rest
termination_by s => s.length
decreasing_by
  · simp only [List.length_cons]
    have h := dropWhile_length_le (· == '%') rest
    omega
  · simp [Nat.lt_succ_self]

/-- `true` iff the string contains two adjacent `%` characters. -/
def hasDoublePercent : Str → Bool
  | [] => false
  | [_] => false
  | c :: d :: rest =>
    (decide (c = '%') && decide (d = '%')) || hasDoublePercent (d :: rest)

/-- Number of positions at which `pat` occurs in the subject. -/
def countOcc (pat : Str) : Str → Nat
  | [] => 0
  | c :: rest =>
    (if pat.isPrefixOf (c :: rest) then 1 else 0) + countOcc pat rest

/-- `Database.prepare`, lines 183-204, restricted to the template rewriting it
performs (the zero-argument form used by `query` at line 243; with no
positional arguments the function returns the rewritten SQL at line 200
without consulting the driver-specific `mogrify`). -/
def prepareStr (s : Str) : Str :=
  pregReplacePercentRuns
    (strReplace dTok placeholder
      (strReplace fTok placeholder
        (strReplace dqTok placeholder
          (strReplace sqTok placeholder s))))

/-- `Database.prepare`, lines 183-204: a `None` template yields no output
(line 183-184), otherwise the template is rewritten by `prepareStr`. -/
def prepare : Option Str → Option Str
  | none => none
  | some s => some (prepareStr s)

/-- `splitStr` always produces at least one part. -/
lemma splitStr_ne_nil (pat s : Str) : splitStr pat s ≠ [] := by
  match s with
  | [] => simp [splitStr]
  | c :: rest =>
    rw [splitStr]
    split
    · simp
    · split <;> simp

/-- Pushing a character onto the first part commutes with joining. -/
lemma joinWith_cons_head (sep : Str) (c : Char) (p : Str) (ps : List Str) :
    joinWith sep ((c :: p) :: ps) = c :: joinWith sep (p :: ps) := by
  cases ps <;> simp [joinWith]

lemma strReplace_eq_replaceSpec_aux (pat repl : Str) :
    ∀ (n : Nat) (s : Str), s.length ≤ n →
      strReplace pat repl s = replaceSpec pat repl s := by
  intro n
  induction n with
  | zero =>
    intro s hs
    have hnil : s = [] := by cases s <;> simp at hs ⊢
    subst hnil
    simp [strReplace, replaceSpec, splitStr, joinWith]
  | succ n ih =>
    intro s hs
    match s with
    | [] => simp [strReplace, replaceSpec, splitStr, joinWith]
    | c :: rest =>
      by_cases h : pat ≠ [] ∧ pat.isPrefixOf (c :: rest)
      · have hpat : 1 ≤ pat.length := by
          rcases pat with _ | ⟨q, qs⟩
          · exact absurd rfl h.1
          · simp
        have hlen : ((c :: rest).drop pat.length).length ≤ n := by
          simp only [List.length_drop, List.length_cons]
          simp only [List.length_cons] at hs
          omega
        obtain ⟨q, qs, hq⟩ :=
          List.exists_cons_of_ne_nil (splitStr_ne_nil pat ((c :: rest).drop pat.length))
        rw [strReplace, if_pos h]
        rw [replaceSpec, splitStr, if_pos h, hq, joinWith]
        rw [ih _ hlen, replaceSpec, hq]
        simp [joinWith]
      · have hlen : rest.length ≤ n := by
          simp only [List.length_cons] at hs
          omega
        obtain ⟨p, ps, hp⟩ :=
          List.exists_cons_of_ne_nil (splitStr_ne_nil pat rest)
        rw [strReplace, if_neg h]
        rw [replaceSpec, splitStr, if_neg h, hp, joinWith_cons_head]
        rw [ih _ hlen, replaceSpec, hp]

/-- The operational model of Python `str.replace` agrees with the split/join
specification: every occurrence of the pattern, in order, becomes the
replacement. -/
lemma strReplace_eq_replaceSpec (pat repl s : Str) :
    strReplace pat repl s = replaceSpec pat repl s :=
  strReplace_eq_replaceSpec_aux pat repl s.length s le_rfl

lemma preg_eq_collapse_aux :
    ∀ (n : Nat) (s : Str), s.length ≤ n →
      pregReplacePercentRuns s = collapseRuns s := by
  intro n
  induction n with
  | zero =>
    intro s hs
    have hnil : s = [] := by cases s <;> simp at hs ⊢
    subst hnil
    simp [pregReplacePercentRuns, collapseRuns]
  | succ n ih =>
    intro s hs
    match s with
    | [] => simp [pregReplacePercentRuns, collapseRuns]
    | c :: rest =>
      simp only [List.length_cons] at hs
      by_cases hc : c = '%'
      · subst hc
        by_cases hh : rest.head? = some '%'
        · rw [pregReplacePercentRuns, if_pos ⟨rfl, hh⟩]
          rw [collapseRuns, if_pos rfl]
          have hlen : (rest.dropWhile (· == '%')).length ≤ n := by
            have := dropWhile_length_le (· == '%') rest
            omega
          rw [ih _ hlen]
        · have hd : rest.dropWhile (· == '%') = rest := by
            cases rest with
            | nil => simp
            | cons d ds =>
              rw [List.dropWhile_cons]
              have hdne : ¬((d == '%') = true) := by
                intro hbeq
                exact hh (by simp [beq_iff_eq] at hbeq; simp [hbeq])
              simp [hdne]
          rw [pregReplacePercentRuns, if_neg (fun hcon => hh hcon.2)]
          rw [collapseRuns, if_pos rfl, hd]
          rw [ih _ (by omega)]
      · rw [pregReplacePercentRuns, if_neg (fun hcon => hc hcon.1)]
        rw [collapseRuns, if_neg hc]
        rw [ih _ (by omega)]

/-- The operational model of `re.sub(r'(%)\1+', r'\1', s)` agrees with the
maximal-run collapse specification. -/
lemma preg_eq_collapse (s : Str) :
    pregReplacePercentRuns s = collapseRuns s :=
  preg_eq_collapse_aux s.length s le_rfl

/-- A leading non-`%` character is irrelevant to `hasDoublePercent`. -/
lemma hasDoublePercent_cons (c : Char) (t : Str) (hc : c ≠ '%') :
    hasDoublePercent (c :: t) = hasDoublePercent t := by
  cases t with
  | nil => simp [hasDoublePercent]
  | cons d ds => simp [hasDoublePercent, hc]

/-- `collapseRuns` keeps the first character. -/
lemma collapseRuns_head? (s : Str) : (collapseRuns s).head? = s.head? := by
  match s with
  | [] => simp [collapseRuns]
  | c :: rest =>
    by_cases hc : c = '%'
    · rw [collapseRuns, if_pos hc]
      simp [hc]
    · rw [collapseRuns, if_neg hc]
      simp

/-- What survives `dropWhile (· == '%')` cannot start with `%`. -/
lemma head?_dropWhile_percent (s : Str) (a : Char)
    (h : (s.dropWhile (· == '%')).head? = some a) : a ≠ '%' := by
  induction s with
  | nil => simp at h
  | cons c rest ih =>
    rw [List.dropWhile_cons] at h
    split at h
    · exact ih h
    · next hneg =>
      simp only [List.head?_cons, Option.some.injEq] at h
      subst h
      intro hcp
      exact hneg (by simp [hcp])

lemma no_double_collapse_aux :
    ∀ (n : Nat) (s : Str), s.length ≤ n →
      hasDoublePercent (collapseRuns s) = false := by
  intro n
  induction n with
  | zero =>
    intro s hs
    have hnil : s = [] := by cases s <;> simp at hs ⊢
    subst hnil
    simp [collapseRuns, hasDoublePercent]
  | succ n ih =>
    intro s hs
    match s with
    | [] => simp [collapseRuns, hasDoublePercent]
    | c :: rest =>
      simp only [List.length_cons] at hs
      by_cases hc : c = '%'
      · subst hc
        rw [collapseRuns, if_pos rfl]
        have hlen : (rest.dropWhile (· == '%')).length ≤ n := by
          have := dropWhile_length_le (· == '%') rest
          omega
        cases hu : collapseRuns (rest.dropWhile (· == '%')) with
        | nil => simp [hasDoublePercent]
        | cons d ds =>
          have hd : d ≠ '%' := by
            have hhd := collapseRuns_head? (rest.dropWhile (· == '%'))
            rw [hu] at hhd
            exact head?_dropWhile_percent rest d hhd.symm
          have hstep : hasDoublePercent ('%' :: d :: ds) = hasDoublePercent (d :: ds) := by
            simp [hasDoublePercent, hd]
          rw [hstep, ← hu]
          exact ih _ hlen
      · rw [collapseRuns, if_neg hc]
        rw [hasDoublePercent_cons _ _ hc]
        exact ih _ (by omega)

/-- The collapse pass leaves no two adjacent `%` characters. -/
lemma no_double_collapse (s : Str) :
    hasDoublePercent (collapseRuns s) = false :=
  no_double_collapse_aux s.length s le_rfl

/-- Claim C1: for every non-null SQL template string, `prepare` rewrites it by
applying, in this order: `'%s'` → `%s`, `"%s"` → `%s`, every `%f` → `%s`,
every `%d` → `%s` (each replacement step replacing every occurrence, in order,
as expressed by the split/join formulation `replaceSpec`), and finally every
run of two or more consecutive `%` characters is collapsed to a single `%`
(the maximal-run formulation `collapseRuns`); moreover the result never
contains two adjacent `%` characters. -/
theorem prepare_normalization (s : Str) :
    prepare (some s)
      = some (collapseRuns (replaceSpec dTok placeholder
          (replaceSpec fTok placeholder
            (replaceSpec dqTok placeholder
              (replaceSpec sqTok placeholder s))))) ∧
    hasDoublePercent (prepareStr s) = false := by
  constructor
  · simp only [prepare, prepareStr, strReplace_eq_replaceSpec, preg_eq_collapse]
  · simp only [prepareStr, preg_eq_collapse]
    exact no_double_collapse _

/- ------------------------------------------------------------------
Session state and cursor metadata
------------------------------------------------------------------ -/

/-- The statement metadata the code reads from the DB-API cursor after an
execution (`cursor.rowcount` at line 258, `cursor.lastrowid` at line 259). -/
structure Cursor where
  rowcount : Int
  lastrowid : Int
deriving DecidableEq

/-- The fields of the mutable `Database` session touched by the claims
(initialised in `__init__`, lines 64-101): `_connection is not None`,
`_in_transaction`, `last_query`, `affected_rows`, `last_insert_id`, and
`queries_executed`.  Diagnostics-only fields (`saved_queries`, timers,
`show_sql`, `last_error`, `_last_result`) are outside the claims and omitted. -/
structure Session where
  connection : Bool
  in_transaction : Bool
  last_query : Option Str
  affected_rows : Int
  last_insert_id : Int
  queries_executed : Nat
deriving DecidableEq

/-- Python `str(n)` for an integer argument, used by the stored-procedure
branch of `query` (line 241). -/
def intStr (n : Int) : Str := (toString n).data

/-- The session-state effect of `Database.query`, lines 233-262, with
`save_queries` off (the default) and a cursor without the non-standard
`mogrify` (so line 245 records the prepared SQL itself).  In the
stored-procedure branch (`proc=True`, lines 239-241) the code calls
`cursor.callproc` and records `sql + ', '.join(map(str, args))`; only the
plain-SQL branch (lines 242-256) runs `prepare` and increments
`queries_executed`.  Both branches then set `affected_rows` and
`last_insert_id` from the cursor (lines 258-259). -/
def queryUpdate (st : Session) (cur : Cursor) (sql : Str) (args : List Int)
    (proc : Bool) : Session :=
  if proc then
    { st with
      last_query := some (sql ++ joinWith (", ".data) (args.map intStr)),
      affected_rows := cur.rowcount,
      last_insert_id := cur.lastrowid }
  else
    { st with
      last_query := some (prepareStr sql),
      queries_executed := st.queries_executed + 1,
      affected_rows := cur.rowcount,
      last_insert_id := cur.lastrowid }

/-- Whether a transaction-control call returned normally or raised
`RuntimeError`. -/
inductive TxOutcome where
  | ok
  | runtimeError
deriving DecidableEq

/-- `Database.begin_transaction`, lines 596-606: requires a connection, issues
the backend `begin()`, sets the in-transaction flag. -/
def begin_transaction (st : Session) : Session × TxOutcome :=
  if st.connection = false then (st, TxOutcome.runtimeError)
  else ({ st with in_transaction := true }, TxOutcome.ok)

/-- `Database.rollback`, lines 608-618: requires a connection *and* an open
transaction, issues the backend `rollback()`, clears the flag.  On the error
path the flag is untouched (the method raises before mutating). -/
def rollback (st : Session) : Session × TxOutcome :=
  if st.connection = false ∨ st.in_transaction = false then
    (st, TxOutcome.runtimeError)
  else ({ st with in_transaction := false }, TxOutcome.ok)

/-- `Database.commit`, lines 620-630: requires only a connection, issues the
backend `commit()`, clears the flag unconditionally. -/
def commit (st : Session) : Session × TxOutcome :=
  if st.connection = false then (st, TxOutcome.runtimeError)
  else ({ st with in_transaction := false }, TxOutcome.ok)

/-- Claim C2: starting from any session state with a live connection:
`begin_transaction` then `rollback` succeeds and leaves the in-transaction
flag false; `begin_transaction` then `commit` likewise; `commit` without a
preceding `begin_transaction` succeeds and leaves the flag false; `rollback`
without a preceding `begin_transaction` raises a usage error and leaves the
whole session state (in particular the flag) unchanged. -/
theorem transaction_roundtrip (st : Session) (h : st.connection = true) :
    (rollback (begin_transaction st).1).1.in_transaction = false ∧
    (rollback (begin_transaction st).1).2 = TxOutcome.ok ∧
    (commit (begin_transaction st).1).1.in_transaction = false ∧
    (commit (begin_transaction st).1).2 = TxOutcome.ok ∧
    (commit st).2 = TxOutcome.ok ∧
    (commit st).1.in_transaction = false ∧
    (st.in_transaction = false → rollback st = (st, TxOutcome.runtimeError)) := by
  refine ⟨?_, ?_, ?_, ?_, ?_, ?_, ?_⟩ <;>
    simp [begin_transaction, rollback, commit, h]

/-- The session used as concrete input by witnesses: freshly connected, not in
a transaction, all counters at their initial values (lines 64-101). -/
def st0 : Session := ⟨true, false, none, 0, 0, 0⟩

/-- A cursor reporting one affected row and no generated key. -/
def cur1 : Cursor := ⟨1, 0⟩

/-- Witness for C2: the hypotheses of `transaction_roundtrip` hold at the
freshly-connected session `st0`. -/
theorem transaction_roundtrip_witness :
    st0.connection = true ∧
    ((rollback (begin_transaction st0).1).1.in_transaction = false ∧
     (rollback (begin_transaction st0).1).2 = TxOutcome.ok ∧
     (commit (begin_transaction st0).1).1.in_transaction = false ∧
     (commit (begin_transaction st0).1).2 = TxOutcome.ok ∧
     (commit st0).2 = TxOutcome.ok ∧
     (commit st0).1.in_transaction = false ∧
     (st0.in_transaction = false → rollback st0 = (st0, TxOutcome.runtimeError))) :=
  ⟨rfl, transaction_roundtrip st0 rfl⟩

/-- Counterexample to claim C3 as stated: in the stored-procedure path
(`proc=True`), `query` does **not** increment the executed-query counter (the
increment at line 256 sits inside the `else` branch of line 239), so after
`db.query('sum_values', 1, 2, proc=True)` on a fresh session the counter is
not the old counter plus one. -/
theorem query_proc_counter_cex :
    ¬ ((queryUpdate st0 cur1 ("sum_values".data) [1, 2] true).queries_executed
        = st0.queries_executed + 1) := by
  decide

/-- Claim C3 (amended): after `query` executes a statement, the session's
affected-row count and last-auto-generated-key are updated from the cursor's
metadata and the final statement text is recorded as the last query in *both*
paths, but the executed-query counter is incremented by one only in the
plain-SQL path; the stored-procedure path (`proc=True`) leaves the counter
unchanged and records the procedure name concatenated with the comma-joined
arguments. -/
theorem query_session_update (st : Session) (cur : Cursor) (sql : Str)
    (args : List Int) :
    (queryUpdate st cur sql args false).affected_rows = cur.rowcount ∧
    (queryUpdate st cur sql args false).last_insert_id = cur.lastrowid ∧
    (queryUpdate st cur sql args false).queries_executed
      = st.queries_executed + 1 ∧
    (queryUpdate st cur sql args false).last_query = some (prepareStr sql) ∧
    (queryUpdate st cur sql args true).affected_rows = cur.rowcount ∧
    (queryUpdate st cur sql args true).last_insert_id = cur.lastrowid ∧
    (queryUpdate st cur sql args true).queries_executed = st.queries_executed ∧
    (queryUpdate st cur sql args true).last_query
      = some (sql ++ joinWith (", ".data) (args.map intStr)) := by
  refine ⟨?_, ?_, ?_, ?_, ?_, ?_, ?_, ?_⟩ <;> simp [queryUpdate]

/- ------------------------------------------------------------------
Cursor lifetime on the fetch path of query (C5)
------------------------------------------------------------------ -/

/-- The exceptions relevant to the fetch/close tail of `query`: an error
raised by the backend's `fetchall`, and Python's `NameError`. -/
inductive PyExc where
  | backendError
  | nameError
deriving DecidableEq

/-- Lines 264-270 of `query`:

```
rv = None
try:
    rv = cursor.fetchall()
except exception:
    if self.logger: logger.exception(exception)
cursor.close()
```

When `fetchall` succeeds, `cursor.close()` runs and the rows are returned.
When `fetchall` raises, Python evaluates the `except exception:` clause to
decide whether it matches — but `exception` is an undefined name, so a
`NameError` is raised from the handler itself and propagates; control never
reaches `cursor.close()`.  The first component records whether the cursor was
closed. -/
def queryFetchClose (fetch : Except PyExc (List Int)) :
    Bool × Except PyExc (Option (List Int)) :=
  match fetch with
  | Except.ok rv => (true, Except.ok (some rv))
  | Except.error _ => (false, Except.error PyExc.nameError)

/-- Claim C5 is the documented intent, but the code violates it: when the
row-fetch step fails after a successful execute, the `except exception:`
clause raises `NameError` (the name `exception` is undefined) and the cursor
is *not* closed before the call raises; on a successful fetch the cursor is
closed. -/
theorem query_fetch_close_bug :
    (queryFetchClose (Except.error PyExc.backendError)).1 = false ∧
    (queryFetchClose (Except.error PyExc.backendError)).2
      = Except.error PyExc.nameError ∧
    (queryFetchClose (Except.ok [1])).1 = true := by
  refine ⟨rfl, rfl, rfl⟩

/- ------------------------------------------------------------------
SQL builder helpers
------------------------------------------------------------------ -/

/-- The shared loop shape of `delete` (lines 524-531) and `update`
(lines 565-581): iterate over the column/value pairs, appending a rendered
clause for every pair and appending the value to the bound-argument list only
when the value is not `None`. -/
def pairLoop (fNone fSome : Str → Str) (init : List Str × List Int)
    (pairs : List (Str × Option Int)) : List Str × List Int :=
  pairs.foldl
    (fun acc p =>
      match p.2 with
      | none => (acc.1 ++ [fNone p.1], acc.2)
      | some v => (acc.1 ++ [fSome p.1], acc.2 ++ [v]))
    init

/-- The loop accumulates exactly the per-pair rendered clauses (in order) and
the non-`None` values (in order). -/
lemma pairLoop_eq (fNone fSome : Str → Str) (pairs : List (Str × Option Int)) :
    ∀ (cs : List Str) (vs : List Int),
      pairLoop fNone fSome (cs, vs) pairs
        = (cs ++ pairs.map (fun p =>
              match p.2 with
              | none => fNone p.1
              | some _ => fSome p.1),
           vs ++ pairs.filterMap Prod.snd) := by
  induction pairs with
  | nil => intro cs vs; simp [pairLoop]
  | cons p rest ih =>
    intro cs vs
    match hp : p.2 with
    | none =>
      have hrec := ih (cs ++ [fNone p.1]) vs
      simp only [pairLoop, List.foldl_cons, hp] at hrec ⊢
      rw [hrec]
      simp [hp, List.filterMap_cons]
    | some v =>
      have hrec := ih (cs ++ [fSome p.1]) (vs ++ [v])
      simp only [pairLoop, List.foldl_cons, hp] at hrec ⊢
      rw [hrec]
      simp [hp, List.filterMap_cons]

/-- `Database.delete`, lines 502-542, restricted to the statement and
bound-argument list it builds (after `kwargs.update(where)`, the merged
mapping is `pairs`): a `None` value renders `"field" IS NULL` and binds
nothing, any other value renders `"field" = %s` and binds the value; the
clauses are joined with `' AND'` (line 533) and appended after
`'DELETE FROM "table" '` as `' WHERE ...'` only when non-empty
(lines 535-538). -/
def delete_build (table : Str) (pairs : List (Str × Option Int)) :
    Str × List Int :=
  let cv := pairLoop
    (fun f => "\"".data ++ f ++ "\" IS NULL".data)
    (fun f => "\"".data ++ f ++ "\" = ".data ++ placeholder)
    ([], []) pairs
  let conds := joinWith (" AND".data) cv.1
  let base := "DELETE FROM \"".data ++ table ++ "\" ".data
  (if conds = [] then base else base ++ " WHERE ".data ++ conds, cv.2)

/-- Counterexample to claim C4 as stated: for `where={a: None, b: 5}` the
produced statement does not contain the claimed separator `" AND "` anywhere
(the source joins with `' AND'`, no trailing space), so the condition clause
is not `"a" IS NULL AND "b" = %s`. -/
theorem delete_separator_cex :
    countOcc (" AND ".data)
        (delete_build ("t".data) [("a".data, none), ("b".data, some 5)]).1
      = 0 ∧
    (delete_build ("t".data) [("a".data, none), ("b".data, some 5)]).1
      ≠ "DELETE FROM \"t\"  WHERE \"a\" IS NULL AND \"b\" = %s".data := by
  refine ⟨by decide, by decide⟩

/-- Claim C4 (amended): `delete` joins the per-column conditions with the
separator `' AND'` (a space before `AND` but none after it), a `None` value
yielding an `IS NULL` test that binds no argument and any other value an
equals-placeholder test binding the value; for `where={a: None, b: 5}` the
statement reads `DELETE FROM "t"  WHERE "a" IS NULL AND"b" = %s` with bound
argument list `[5]`; with an empty condition mapping the statement has no
WHERE clause. -/
theorem delete_where_clause :
    (∀ (t : Str) (pairs : List (Str × Option Int)),
        (delete_build t pairs).2 = pairs.filterMap Prod.snd) ∧
    (∀ t : Str,
        (delete_build t []).1 = "DELETE FROM \"".data ++ t ++ "\" ".data) ∧
    delete_build ("t".data) [("a".data, none), ("b".data, some 5)]
      = ("DELETE FROM \"t\"  WHERE \"a\" IS NULL AND\"b\" = %s".data, [5]) := by
  refine ⟨?_, ?_, by decide⟩
  · intro t pairs
    simp [delete_build, pairLoop_eq]
  · intro t
    simp [delete_build, pairLoop, joinWith]

/- ------------------------------------------------------------------
Python dict model for the insert merge (`kwargs.update(data)`, line 456)
------------------------------------------------------------------ -/

/-- `d[k] = v` on a Python dict modelled as an association list with unique
keys: an existing key keeps its position and gets the new value, a new key is
appended. -/
def setKey (b : List (Str × Int)) (k : Str) (v : Int) : List (Str × Int) :=
  if b.any (fun p => p.1 == k) then
    b.map (fun p => if p.1 == k then (p.1, v) else p)
  else b ++ [(k, v)]

/-- Python `b.update(d)`: assign every pair of `d`, in order, into `b`. -/
def dictUpdate (b d : List (Str × Int)) : List (Str × Int) :=
  d.foldl (fun acc kv => setKey acc kv.1 kv.2) b

/-- Python `b[k]` (first matching key). -/
def lookupVal (b : List (Str × Int)) (k : Str) : Option Int :=
  (b.find? (fun p => p.1 == k)).map Prod.snd

/-- Cons step of `lookupVal` when the head key matches. -/
lemma lookupVal_cons_pos (q : Str × Int) (rest : List (Str × Int)) (k : Str)
    (hq : (q.1 == k) = true) : lookupVal (q :: rest) k = some q.2 := by
  unfold lookupVal
  rw [List.find?_cons, hq]
  rfl

/-- Cons step of `lookupVal` when the head key does not match. -/
lemma lookupVal_cons_neg (q : Str × Int) (rest : List (Str × Int)) (k : Str)
    (hq : (q.1 == k) = false) : lookupVal (q :: rest) k = lookupVal rest k := by
  unfold lookupVal
  rw [List.find?_cons, hq]

lemma lookupVal_map_replace (k : Str) (v : Int) (b : List (Str × Int))
    (hany : b.any (fun p => p.1 == k) = true) :
    lookupVal (b.map (fun p => if p.1 == k then (p.1, v) else p)) k = some v := by
  induction b with
  | nil => simp at hany
  | cons p rest ih =>
    simp only [List.any_cons, Bool.or_eq_true] at hany
    cases hp : (p.1 == k) with
    | true =>
      rw [List.map_cons, if_pos hp, lookupVal_cons_pos (p.1, v) _ k hp]
    | false =>
      have hany' : (rest.any fun p => p.1 == k) = true := by
        rcases hany with h | h
        · exact absurd h (by rw [hp]; exact Bool.false_ne_true)
        · exact h
      rw [List.map_cons, if_neg (by rw [hp]; exact Bool.false_ne_true),
        lookupVal_cons_neg _ _ _ hp]
      exact ih hany'

lemma lookupVal_append_single (k : Str) (v : Int) (b : List (Str × Int))
    (hno : b.any (fun p => p.1 == k) = false) :
    lookupVal (b ++ [(k, v)]) k = some v := by
  induction b with
  | nil =>
    rw [List.nil_append, lookupVal_cons_pos _ _ _ (beq_self_eq_true k)]
  | cons p rest ih =>
    simp only [List.any_cons, Bool.or_eq_false_iff] at hno
    rw [List.cons_append, lookupVal_cons_neg _ _ _ hno.1]
    exact ih hno.2

/-- After `b[k] = v`, looking up `k` yields `v`. -/
lemma lookup_setKey_self (b : List (Str × Int)) (k : Str) (v : Int) :
    lookupVal (setKey b k v) k = some v := by
  unfold setKey
  split
  · next hany => exact lookupVal_map_replace k v b hany
  · next hno =>
    have hno' : (b.any fun p => p.1 == k) = false := by
      cases h : (b.any fun p => p.1 == k)
      · rfl
      · exact absurd h hno
    exact lookupVal_append_single k v b hno'

lemma lookupVal_map_replace_ne (k kk : Str) (v : Int) (b : List (Str × Int))
    (hne : k ≠ kk) :
    lookupVal (b.map (fun p => if p.1 == kk then (p.1, v) else p)) k
      = lookupVal b k := by
  induction b with
  | nil => rw [List.map_nil]
  | cons p rest ih =>
    cases hp : (p.1 == k) with
    | true =>
      have hpk : p.1 = k := by simpa using hp
      have hpkk : ¬((p.1 == kk) = true) := by
        intro hcon
        rw [hpk] at hcon
        exact hne (by simpa using hcon)
      rw [List.map_cons, if_neg hpkk, lookupVal_cons_pos _ _ _ hp,
        lookupVal_cons_pos _ _ _ hp]
    | false =>
      cases hkk : (p.1 == kk) with
      | true =>
        rw [List.map_cons, if_pos hkk, lookupVal_cons_neg (p.1, v) _ k hp,
          lookupVal_cons_neg _ _ _ hp]
        exact ih
      | false =>
        rw [List.map_cons, if_neg (by rw [hkk]; exact Bool.false_ne_true),
          lookupVal_cons_neg _ _ _ hp, lookupVal_cons_neg _ _ _ hp]
        exact ih

/-- Assigning a different key does not change the lookup of `k`. -/
lemma lookup_setKey_ne (b : List (Str × Int)) (k kk : Str) (v : Int)
    (hne : k ≠ kk) :
    lookupVal (setKey b kk v) k = lookupVal b k := by
  unfold setKey
  split
  · exact lookupVal_map_replace_ne k kk v b hne
  · have hkk : ((kk, v).1 == k) = false := by
      apply beq_eq_false_iff_ne.mpr
      exact Ne.symm hne
    unfold lookupVal
    rw [List.find?_append, List.find?_cons, hkk]
    simp

/-- Updating with a mapping whose keys all differ from `k` does not change the
lookup of `k`. -/
lemma lookup_dictUpdate_not_mem (d : List (Str × Int)) :
    ∀ (b : List (Str × Int)) (k : Str), (∀ q ∈ d, q.1 ≠ k) →
      lookupVal (dictUpdate b d) k = lookupVal b k := by
  induction d with
  | nil => intro b k _; simp [dictUpdate]
  | cons q rest ih =>
    intro b k hq
    have hrec := ih (setKey b q.1 q.2) k
      (fun r hr => hq r (List.mem_cons_of_mem q hr))
    simp only [dictUpdate, List.foldl_cons] at hrec ⊢
    rw [hrec]
    exact lookup_setKey_ne b k q.1 q.2
      (Ne.symm (hq q (List.mem_cons_self q rest)))

/-- `b.update(d)`: for every key of `d` (keys of a Python dict are unique),
the merged mapping carries `d`'s value — the update argument wins. -/
lemma lookup_dictUpdate (d : List (Str × Int)) :
    ∀ (b : List (Str × Int)) (k : Str) (v : Int),
      (d.map Prod.fst).Nodup → lookupVal d k = some v →
      lookupVal (dictUpdate b d) k = some v := by
  induction d with
  | nil =>
    intro b k v _ h
    simp [lookupVal] at h
  | cons q rest ih =>
    intro b k v hnd h
    by_cases hq : (q.1 == k) = true
    · have hkq : q.1 = k := by simpa using hq
      have hv : q.2 = v := by
        simp [lookupVal, List.find?_cons_of_pos, hq] at h
        exact h
      have hnot : ∀ r ∈ rest, r.1 ≠ k := by
        intro r hr hrk
        have hqnot : q.1 ∉ rest.map Prod.fst := (List.nodup_cons.mp hnd).1
        exact hqnot (List.mem_map.mpr ⟨r, hr, by rw [hrk, hkq]⟩)
      have hskip := lookup_dictUpdate_not_mem rest (setKey b q.1 q.2) k hnot
      simp only [dictUpdate, List.foldl_cons] at hskip ⊢
      rw [hskip, hkq, lookup_setKey_self, hv]
    · have h' : lookupVal rest k = some v := by
        simpa [lookupVal, List.find?_cons_of_neg, hq] using h
      have := ih (setKey b q.1 q.2) k v (List.nodup_cons.mp hnd).2 h'
      simpa [dictUpdate, List.foldl_cons] using this

/- ------------------------------------------------------------------
insert and bulk_insert
------------------------------------------------------------------ -/

/-- The merged column/value mapping used by `Database.insert`
(lines 455-456): `if data is not None: kwargs.update(data)`. -/
def insert_pairs (data : Option (List (Str × Int))) (kwargs : List (Str × Int)) :
    List (Str × Int) :=
  match data with
  | none => kwargs
  | some d => dictUpdate kwargs d

/-- The statement and argument list built by `Database.insert`,
lines 458-464: `INSERT INTO table (keys...) VALUES (placeholders...)` with
one placeholder per value and the values in mapping order. -/
def insert_build (table : Str) (pairs : List (Str × Int)) : Str × List Int :=
  ("INSERT INTO ".data ++ table ++ " (".data
     ++ joinWith (", ".data) (pairs.map Prod.fst)
     ++ ") VALUES (".data
     ++ joinWith (", ".data) (List.replicate pairs.length placeholder)
     ++ ")".data,
   pairs.map Prod.snd)

/-- `Database.insert`, lines 437-468: merge, build, run through `query`, and
return `self.affected_rows`. -/
def insert_run (st : Session) (cur : Cursor) (table : Str)
    (data : Option (List (Str × Int))) (kwargs : List (Str × Int)) :
    Session × Int :=
  let pairs := insert_pairs data kwargs
  let bv := insert_build table pairs
  let st2 := queryUpdate st cur bv.1 bv.2 false
  (st2, st2.affected_rows)

/-- Claim C6: for `insert` on table `t` with mapping `{a: 1, b: 2}` the
statement is `INSERT INTO t (a, b) VALUES (%s, %s)` with exactly two
placeholders and argument list `[1, 2]` in insertion order; the returned
value equals the session's affected-row count after the statement; and when
both a structured mapping and keyword-style pairs are given, the structured
mapping's value wins on conflicting keys. -/
theorem insert_spec (st : Session) (cur : Cursor)
    (kwargs data : List (Str × Int)) (k : Str) (v : Int)
    (h1 : (data.map Prod.fst).Nodup) (h2 : lookupVal data k = some v) :
    insert_build ("t".data) [("a".data, 1), ("b".data, 2)]
      = ("INSERT INTO t (a, b) VALUES (%s, %s)".data, [1, 2]) ∧
    countOcc placeholder
        (insert_build ("t".data) [("a".data, 1), ("b".data, 2)]).1 = 2 ∧
    (insert_run st cur ("t".data) (some data) kwargs).2
      = (insert_run st cur ("t".data) (some data) kwargs).1.affected_rows ∧
    lookupVal (dictUpdate kwargs data) k = some v := by
  exact ⟨by decide, by decide, rfl, lookup_dictUpdate data kwargs k v h1 h2⟩

/-- The keyword-style pairs used by the C6 witness (`a` bound to 9). -/
def kwargsW : List (Str × Int) := [("a".data, 9)]

/-- The structured mapping used by the C6 witness (`{a: 1, b: 2}`). -/
def dataW : List (Str × Int) := [("a".data, 1), ("b".data, 2)]

/-- Witness for C6 at the concrete session `st0`, cursor `cur1`,
kwargs `{a: 9}` and data `{a: 1, b: 2}`: the conflicting key `a` resolves to
the structured mapping's value 1. -/
theorem insert_spec_witness :
    ((dataW.map Prod.fst).Nodup ∧ lookupVal dataW ("a".data) = some 1) ∧
    (insert_build ("t".data) [("a".data, 1), ("b".data, 2)]
        = ("INSERT INTO t (a, b) VALUES (%s, %s)".data, [1, 2]) ∧
     countOcc placeholder
         (insert_build ("t".data) [("a".data, 1), ("b".data, 2)]).1 = 2 ∧
     (insert_run st0 cur1 ("t".data) (some dataW) kwargsW).2
       = (insert_run st0 cur1 ("t".data) (some dataW) kwargsW).1.affected_rows ∧
     lookupVal (dictUpdate kwargsW dataW) ("a".data) = some 1) :=
  ⟨⟨by decide, by decide⟩,
   insert_spec st0 cur1 kwargsW dataW ("a".data) 1 (by decide) (by decide)⟩

/-- The statement and flattened argument list built by
`Database.bulk_insert`, lines 470-498: one parenthesised placeholder group
per value row (`single_values` at line 486), groups joined with `', '`, and
all row values flattened row by row (lines 494-496). -/
def bulk_insert_build (table : Str) (columns : List Str)
    (values : List (List Int)) : Str × List Int :=
  let single_values := "(".data
    ++ joinWith (", ".data) (List.replicate columns.length placeholder)
    ++ ")".data
  ("INSERT INTO ".data ++ table ++ " (".data
     ++ joinWith (", ".data) columns
     ++ ") VALUES ".data
     ++ joinWith (", ".data) (List.replicate values.length single_values),
   values.foldl (fun acc v => acc ++ v) [])

/-- `Database.bulk_insert` runs the built statement through `query` and
returns `self.affected_rows` (lines 498-500). -/
def bulk_insert_run (st : Session) (cur : Cursor) (table : Str)
    (columns : List Str) (values : List (List Int)) : Session × Int :=
  let bv := bulk_insert_build table columns values
  let st2 := queryUpdate st cur bv.1 bv.2 false
  (st2, st2.affected_rows)

/-- The extend-loop of lines 494-496 flattens the rows in order. -/
lemma foldl_append_flatten (ls : List (List Int)) :
    ∀ acc : List Int, ls.foldl (fun a v => a ++ v) acc = acc ++ ls.flatten := by
  induction ls with
  | nil => intro acc; simp
  | cons l rest ih =>
    intro acc
    simp only [List.foldl_cons, List.flatten_cons]
    rw [ih (acc ++ l), List.append_assoc]

/-- Claim C7: for `bulk_insert` with columns `[a, b]` and rows
`[(1,2), (3,4)]` the statement contains exactly two parenthesised value
groups of exactly two placeholders each, the flattened argument list is
`[1, 2, 3, 4]` in row-by-row order (in general, the flattening of the rows),
and the call returns the session's affected-row count. -/
theorem bulk_insert_spec :
    bulk_insert_build ("t".data) ["a".data, "b".data] [[1, 2], [3, 4]]
      = ("INSERT INTO t (a, b) VALUES (%s, %s), (%s, %s)".data, [1, 2, 3, 4]) ∧
    countOcc ("(%s, %s)".data)
        (bulk_insert_build ("t".data) ["a".data, "b".data] [[1, 2], [3, 4]]).1
      = 2 ∧
    countOcc placeholder
        (bulk_insert_build ("t".data) ["a".data, "b".data] [[1, 2], [3, 4]]).1
      = 4 ∧
    (∀ (t : Str) (cols : List Str) (vals : List (List Int)),
        (bulk_insert_build t cols vals).2 = vals.flatten) ∧
    (∀ (st : Session) (cur : Cursor) (t : Str) (cols : List Str)
        (vals : List (List Int)),
        (bulk_insert_run st cur t cols vals).2
          = (bulk_insert_run st cur t cols vals).1.affected_rows) := by
  refine ⟨by decide, by decide, by decide, ?_, fun st cur t cols vals => rfl⟩
  intro t cols vals
  simpa [bulk_insert_build] using foldl_append_flatten vals []

/- ------------------------------------------------------------------
update
------------------------------------------------------------------ -/

/-- The statement and argument list built by `Database.update`,
lines 565-588 (after the mapping-type guard): the SET clause renders a `None`
value as the literal `"field" = NULL` (binding nothing) and any other value
as `"field" = %s` (binding it); the WHERE clause renders `None` as
`"field" IS NULL` and other values as `"field" = %s`; both loops append their
bound values to one shared list, data first, then where; fields are joined
with `', '` and conditions with `' AND '` (lines 583-586). -/
def update_build (table : Str) (data wherePairs : List (Str × Option Int)) :
    Str × List Int :=
  let fv := pairLoop
    (fun f => "\"".data ++ f ++ "\" = NULL".data)
    (fun f => "\"".data ++ f ++ "\" = ".data ++ placeholder)
    ([], []) data
  let cv := pairLoop
    (fun f => "\"".data ++ f ++ "\" IS NULL".data)
    (fun f => "\"".data ++ f ++ "\" = ".data ++ placeholder)
    ([], fv.2) wherePairs
  ("UPDATE \"".data ++ table ++ "\" SET ".data
     ++ joinWith (", ".data) fv.1
     ++ " WHERE ".data
     ++ joinWith (" AND ".data) cv.1,
   cv.2)

/-- Claim C8: in `update`, a `None` data entry produces a literal `= NULL`
assignment binding no argument, every non-`None` data or where entry
contributes exactly one placeholder and one bound argument, and data
arguments precede where arguments in the positional list; concretely, for
`data={a: None, b: 7}` and `where={c: 5}` the statement is
`UPDATE "t" SET "a" = NULL, "b" = %s WHERE "c" = %s` — two placeholders in
total, none for the NULL assignment — with argument list `[7, 5]`. -/
theorem update_build_spec :
    (∀ (t : Str) (data w : List (Str × Option Int)),
        (update_build t data w).2
          = data.filterMap Prod.snd ++ w.filterMap Prod.snd) ∧
    (∀ (t : Str) (data w : List (Str × Option Int)),
        (update_build t data w).1
          = "UPDATE \"".data ++ t ++ "\" SET ".data
            ++ joinWith (", ".data) (data.map (fun p =>
                 match p.2 with
                 | none => "\"".data ++ p.1 ++ "\" = NULL".data
                 | some _ => "\"".data ++ p.1 ++ "\" = ".data ++ placeholder))
            ++ " WHERE ".data
            ++ joinWith (" AND ".data) (w.map (fun p =>
                 match p.2 with
                 | none => "\"".data ++ p.1 ++ "\" IS NULL".data
                 | some _ => "\"".data ++ p.1 ++ "\" = ".data ++ placeholder))) ∧
    update_build ("t".data) [("a".data, none), ("b".data, some 7)]
        [("c".data, some 5)]
      = ("UPDATE \"t\" SET \"a\" = NULL, \"b\" = %s WHERE \"c\" = %s".data,
         [7, 5]) ∧
    countOcc placeholder
        (update_build ("t".data) [("a".data, none), ("b".data, some 7)]
          [("c".data, some 5)]).1 = 2 := by
  refine ⟨?_, ?_, by decide, by decide⟩
  · intro t data w
    simp [update_build, pairLoop_eq]
  · intro t data w
    simp [update_build, pairLoop_eq]

/-- A Python argument that is either a dict (modelled as pairs) or any
non-dict value, as tested by `isinstance(..., dict)` at line 562. -/
inductive PyArg where
  | dict (pairs : List (Str × Option Int))
  | nonDict
deriving DecidableEq

/-- What `Database.update` returns: `False` from the type guard (line 563) or
`self.affected_rows` (line 590). -/
inductive UpdateResult where
  | failed
  | rows (n : Int)
deriving DecidableEq

/-- `Database.update`, lines 544-590: if either `data` or `where` is not a
dict, return `False` immediately without querying (lines 562-563); otherwise
build the statement, run it through `query`, and return the session's
affected-row count. -/
def update_run (st : Session) (cur : Cursor) (table : Str)
    (data wherePairs : PyArg) : Session × UpdateResult :=
  match data, wherePairs with
  | PyArg.dict d, PyArg.dict w =>
    let bv := update_build table d w
    let st2 := queryUpdate st cur bv.1 bv.2 false
    (st2, UpdateResult.rows st2.affected_rows)
  | _, _ => (st, UpdateResult.failed)

/-- Claim C9: whenever the data argument or the where argument of `update` is
not a mapping, the call returns the boolean failure indicator immediately and
the session state — last query, affected-row count, executed-query counter —
is left entirely unchanged (no query is executed). -/
theorem update_shape_guard (st : Session) (cur : Cursor) (t : Str)
    (data wherePairs : PyArg)
    (h : data = PyArg.nonDict ∨ wherePairs = PyArg.nonDict) :
    update_run st cur t data wherePairs = (st, UpdateResult.failed) := by
  cases data with
  | dict d =>
    cases wherePairs with
    | dict w =>
      rcases h with h | h <;> simp at h
    | nonDict => rfl
  | nonDict => cases wherePairs <;> rfl

/-- Witness for C9: a non-dict where argument at the concrete session `st0`
returns the failure indicator with the session unchanged. -/
theorem update_shape_guard_witness :
    ((PyArg.dict [] : PyArg) = PyArg.nonDict ∨
      (PyArg.nonDict : PyArg) = PyArg.nonDict) ∧
    update_run st0 cur1 ("t".data) (PyArg.dict []) PyArg.nonDict
      = (st0, UpdateResult.failed) :=
  ⟨Or.inr rfl,
   update_shape_guard st0 cur1 ("t".data) (PyArg.dict []) PyArg.nonDict
     (Or.inr rfl)⟩

/- ------------------------------------------------------------------
get_row / get_results output shaping
------------------------------------------------------------------ -/

/-- A materialised result row (`Record`), with its ordered column names and
values; the claims only need it as an opaque carrier. -/
structure Rec where
  keys : List Str
  vals : List Str
deriving DecidableEq

/-- A row shaped for output: the raw record (`'record'`), `row.as_dict()`
(`'dict'`), `row.dataset` (`'dataset'`), or the Munch object view
(`'object'`). -/
inductive Shaped where
  | record (r : Rec)
  | asDict (r : Rec)
  | dataset (r : Rec)
  | munchObj (r : Rec)
deriving DecidableEq

/-- The shared `if/elif` dispatch of `get_row` (lines 375-382) and
`get_results` (lines 426-433): an unrecognised `output_type` matches no
branch. -/
def shapeRow (row : Rec) (output_type : Str) : Option Shaped :=
  if output_type = "record".data then some (Shaped.record row)
  else if output_type = "dict".data then some (Shaped.asDict row)
  else if output_type = "dataset".data then some (Shaped.dataset row)
  else if output_type = "object".data then some (Shaped.munchObj row)
  else none

/-- The Python value returned by the row-shaping helpers: `None`, a single
shaped row, or a list of shaped rows. -/
inductive PyRet where
  | pynone
  | pyrow (s : Shaped)
  | pylist (xs : List Shaped)
deriving DecidableEq

/-- `Database.get_row`, lines 353-384: run the query, index the requested
row (line 373, which presupposes the offset is in range), dispatch on
`output_type`, and fall through to `return None` (line 384) when no branch
matches. -/
def get_row (rows : List Rec) (output_type : Str) (row_offset : Nat)
    (h : row_offset < rows.length) : PyRet :=
  match shapeRow (rows.get ⟨row_offset, h⟩) output_type with
  | some s => PyRet.pyrow s
  | none => PyRet.pynone

/-- `Database.get_results`, lines 406-435: run the query, then append one
shaped row per result row, appending nothing when no `output_type` branch
matches, and return the accumulated list. -/
def get_results (rows : List Rec) (output_type : Str) : PyRet :=
  PyRet.pylist (rows.foldl
    (fun acc row =>
      match shapeRow row output_type with
      | some s => acc ++ [s]
      | none => acc)
    [])

/-- An unrecognised output type shapes no row. -/
lemma shapeRow_unknown (t : Str)
    (h1 : t ≠ "record".data) (h2 : t ≠ "dict".data)
    (h3 : t ≠ "dataset".data) (h4 : t ≠ "object".data) (row : Rec) :
    shapeRow row t = none := by
  simp [shapeRow, h1, h2, h3, h4]

lemma get_results_loop_unknown (t : Str)
    (hnone : ∀ row : Rec, shapeRow row t = none) (rows : List Rec) :
    ∀ acc : List Shaped,
      rows.foldl
        (fun acc row =>
          match shapeRow row t with
          | some s => acc ++ [s]
          | none => acc)
        acc = acc := by
  induction rows with
  | nil => intro acc; rfl
  | cons r rest ih =>
    intro acc
    rw [List.foldl_cons, hnone r]
    exact ih acc

/-- Claim C10: for every output type other than `'record'`, `'dict'`,
`'dataset'`, `'object'`: `get_row` returns `None` (after indexing the
requested row) while `get_results` returns the empty list — the two
operations disagree on the fallback value for an unrecognised shape. -/
theorem get_row_vs_get_results_fallback (t : Str)
    (h1 : t ≠ "record".data) (h2 : t ≠ "dict".data)
    (h3 : t ≠ "dataset".data) (h4 : t ≠ "object".data)
    (rows : List Rec) (off : Nat) (hoff : off < rows.length) :
    get_row rows t off hoff = PyRet.pynone ∧
    get_results rows t = PyRet.pylist [] ∧
    PyRet.pynone ≠ PyRet.pylist [] := by
  refine ⟨?_, ?_, by simp⟩
  · rw [get_row, shapeRow_unknown t h1 h2 h3 h4]
  · rw [get_results,
      get_results_loop_unknown t (shapeRow_unknown t h1 h2 h3 h4) rows []]

/-- The empty record used as concrete input by the C10 witness. -/
def rec0 : Rec := ⟨[], []⟩

/-- Witness for C10 at the unrecognised output type `'tuple'` and a
single-row result set. -/
theorem get_row_vs_get_results_fallback_witness :
    ("tuple".data ≠ "record".data ∧ "tuple".data ≠ "dict".data ∧
     "tuple".data ≠ "dataset".data ∧ "tuple".data ≠ "object".data ∧
     0 < ([rec0] : List Rec).length) ∧
    (get_row [rec0] ("tuple".data) 0 (by decide) = PyRet.pynone ∧
     get_results [rec0] ("tuple".data) = PyRet.pylist [] ∧
     PyRet.pynone ≠ PyRet.pylist []) :=
  ⟨⟨by decide, by decide, by decide, by decide, by decide⟩,
   get_row_vs_get_results_fallback ("tuple".data) (by decide) (by decide)
     (by decide) (by decide) [rec0] 0 (by decide)⟩

end Ezrecords
